import Mathlib

/-!
Verification development for the auto_PPT_gen presentation generator.

The TypeScript sources are shallowly embedded here:
  - the Plan Generator `generateSlidePlan` and its deterministic fallback
    `createFallbackPlan` (services module, part_004 lines 17-246),
  - the Slide Image Generator `generateFinalSlideImage` (part_004 lines
    252-449) for both providers,
  - the Session Controller loop `startGeneration`
    (components/PreviewDownload.tsx lines 63-134).

JavaScript strings are embedded as `List Char`.  The JS string methods
used by the source (`includes`, `split`, `trim`) are reimplemented below
with the same observable semantics for the non-empty separators the
source uses.  `JSON.parse` is embedded as an executable fuel-based
recursive-descent reader producing a `Json` value; JSON numbers are kept
as their source lexeme since no code path under verification computes
with numeric values.
-/

/-- JavaScript strings, embedded as lists of characters. -/
abbrev JStr := List Char

/-- The backtick character (code 96), written numerically. -/
def btChar : Char := Char.ofNat 96

/-- Double quote character (code 34). -/
def qChar : Char := Char.ofNat 34

/-- Backslash character (code 92). -/
def bsChar : Char := Char.ofNat 92

/-- Opening curly brace character (code 123). -/
def lbChar : Char := Char.ofNat 123

/-- Closing curly brace character (code 125). -/
def rbChar : Char := Char.ofNat 125

/-- Whitespace characters recognised by the embedded `trim` and by the
JSON reader (space, newline, tab, carriage return). -/
def jsonWsChar (c : Char) : Bool :=
  c = ' ' || c = '\n' || c = '\t' || c = '\r'

/-- Locate the first occurrence of `sep` in a string, returning the text
before it and the text after it.  `none` when `sep` does not occur.
This is the primitive underlying the embeddings of `String.includes`
and `String.split`.  (It is only ever used with non-empty `sep`.) -/
def splitFirst (sep : JStr) : JStr → Option (JStr × JStr)
  | [] => none
  | c :: cs =>
    if sep.isPrefixOf (c :: cs) then some ([], (c :: cs).drop sep.length)
    else
      match splitFirst sep cs with
      | some (pre, post) => some (c :: pre, post)
      | none => none

/-- Embeds `s.includes(sep)` for non-empty `sep`. -/
def jsIncludes (s sep : JStr) : Bool := (splitFirst sep s).isSome

/-- Fuel-driven worker for `jsSplit`.  Each step removes one occurrence
of the separator, so `s.length + 1` fuel always suffices for a non-empty
separator. -/
def jsSplitAux (sep : JStr) : Nat → JStr → List JStr
  | 0, s => [s]
  | fuel + 1, s =>
    match splitFirst sep s with
    | none => [s]
    | some (pre, post) => pre :: jsSplitAux sep fuel post

/-- Embeds `s.split(sep)` for non-empty `sep`. -/
def jsSplit (sep s : JStr) : List JStr := jsSplitAux sep (s.length + 1) s

/-- Embeds `s.trim()`: strip leading whitespace, then trailing
whitespace. -/
def jsTrim (s : JStr) : JStr :=
  ((s.dropWhile jsonWsChar).reverse.dropWhile jsonWsChar).reverse

/-- JSON values as produced by the embedded `JSON.parse`.  Numbers keep
their source lexeme: no verified code path computes with a numeric
value, it is only carried around or rejected by shape checks. -/
inductive Json where
  | null
  | bool (b : Bool)
  | num (lexeme : JStr)
  | str (s : JStr)
  | arr (items : List Json)
  | obj (fields : List (JStr × Json))

/-- Property lookup on a parsed-object field list.  `JSON.parse` builds
objects by repeated assignment, so field lists built below always carry
each key at most once and first-match lookup is the JS lookup. -/
def objGet (fs : List (JStr × Json)) (k : JStr) : Option Json :=
  match fs with
  | [] => none
  | kv :: rest => if kv.1 = k then some kv.2 else objGet rest k

/-- Property assignment `o[k] = v`: overwrite the value in place when
the key is present, append the key otherwise (JS insertion order). -/
def objSet (fs : List (JStr × Json)) (k : JStr) (v : Json) : List (JStr × Json) :=
  match fs with
  | [] => [(k, v)]
  | kv :: rest => if kv.1 = k then (k, v) :: rest else kv :: objSet rest k v

/-- Property lookup on an arbitrary JSON value; anything that is not an
object has no properties of interest here. -/
def jsonGet : Json → JStr → Option Json
  | .obj fs, k => objGet fs k
  | _, _ => none

/-- Value of a hexadecimal digit, for `\u` escapes. -/
def hexDigitVal (c : Char) : Option Nat :=
  if '0' ≤ c ∧ c ≤ '9' then some (c.toNat - '0'.toNat)
  else if 'a' ≤ c ∧ c ≤ 'f' then some (c.toNat - 'a'.toNat + 10)
  else if 'A' ≤ c ∧ c ≤ 'F' then some (c.toNat - 'A'.toNat + 10)
  else none

/-- Read a JSON string body (the part after the opening quote), handling
the escape sequences of the JSON grammar.  Returns the decoded content
and the remaining input after the closing quote.  A `\u` escape whose
code is not a scalar value decodes through `Char.ofNat` (lone surrogates
are outside the model; no verified input contains one). -/
def parseStringBody : Nat → JStr → Option (JStr × JStr)
  | 0, _ => none
  | _ + 1, [] => none
  | fuel + 1, c :: rest =>
    if c = qChar then some ([], rest)
    else if c = bsChar then
      match rest with
      | [] => none
      | e :: rest2 =>
        let esc : Option (Char × JStr) :=
          if e = qChar then some (qChar, rest2)
          else if e = bsChar then some (bsChar, rest2)
          else if e = '/' then some ('/', rest2)
          else if e = 'b' then some (Char.ofNat 8, rest2)
          else if e = 'f' then some (Char.ofNat 12, rest2)
          else if e = 'n' then some ('\n', rest2)
          else if e = 'r' then some ('\r', rest2)
          else if e = 't' then some ('\t', rest2)
          else if e = 'u' then
            match rest2 with
            | h1 :: h2 :: h3 :: h4 :: rest3 =>
              match hexDigitVal h1, hexDigitVal h2, hexDigitVal h3, hexDigitVal h4 with
              | some a, some b, some c2, some d =>
                some (Char.ofNat (a * 4096 + b * 256 + c2 * 16 + d), rest3)
              | _, _, _, _ => none
            | _ => none
          else none
        match esc with
        | some (ch, r) => (parseStringBody fuel r).map (fun pr => (ch :: pr.1, pr.2))
        | none => none
    else (parseStringBody fuel rest).map (fun pr => (c :: pr.1, pr.2))

/-- Read a JSON number lexeme: optional sign, integer part, optional
fraction, optional exponent.  Returns the lexeme and the rest. -/
def parseNumberLex (s : JStr) : Option (JStr × JStr) :=
  let signed : JStr × JStr :=
    match s with
    | c :: r => if c = '-' then (['-'], r) else ([], s)
    | [] => ([], s)
  let sign := signed.1
  let s1 := signed.2
  let ip := s1.takeWhile Char.isDigit
  let s2 := s1.dropWhile Char.isDigit
  if ip.isEmpty then none
  else
    let fracPart : Option JStr × JStr :=
      match s2 with
      | c :: r =>
        if c = '.' then
          let ds := r.takeWhile Char.isDigit
          (if ds.isEmpty then none else some ('.' :: ds), r.dropWhile Char.isDigit)
        else (some [], s2)
      | [] => (some [], s2)
    match fracPart with
    | (none, _) => none
    | (some fpl, s3) =>
      let expPart : Option JStr × JStr :=
        match s3 with
        | c :: r =>
          if c = 'e' ∨ c = 'E' then
            let se : JStr × JStr :=
              match r with
              | c2 :: r2 => if c2 = '+' ∨ c2 = '-' then ([c2], r2) else ([], r)
              | [] => ([], r)
            let ds := se.2.takeWhile Char.isDigit
            (if ds.isEmpty then none else some (c :: se.1 ++ ds), se.2.dropWhile Char.isDigit)
          else (some [], s3)
        | [] => (some [], s3)
      match expPart with
      | (none, _) => none
      | (some epl, s4) => some (sign ++ ip ++ fpl ++ epl, s4)

/-- Mode of the single recursive JSON reading function: a value, the
elements of an array after `[`, or the members of an object after
the opening brace. -/
inductive PMode where
  | value
  | elems (acc : List Json)
  | members (acc : List (JStr × Json))

/-- The recursive core of the embedded `JSON.parse`, structurally
recursive on fuel so that it evaluates by kernel reduction. -/
def parseCore : Nat → PMode → JStr → Option (Json × JStr)
  | 0, _, _ => none
  | fuel + 1, .value, s =>
    match s.dropWhile jsonWsChar with
    | [] => none
    | c :: rest =>
      if c = qChar then
        (parseStringBody (rest.length + 1) rest).map (fun pr => (Json.str pr.1, pr.2))
      else if c = lbChar then
        match rest.dropWhile jsonWsChar with
        | c2 :: r2 =>
          if c2 = rbChar then some (Json.obj [], r2)
          else parseCore fuel (.members []) (c2 :: r2)
        | [] => none
      else if c = '[' then
        match rest.dropWhile jsonWsChar with
        | c2 :: r2 =>
          if c2 = ']' then some (Json.arr [], r2)
          else parseCore fuel (.elems []) (c2 :: r2)
        | [] => none
      else if c = 't' then
        match rest with
        | 'r' :: 'u' :: 'e' :: r => some (Json.bool true, r)
        | _ => none
      else if c = 'f' then
        match rest with
        | 'a' :: 'l' :: 's' :: 'e' :: r => some (Json.bool false, r)
        | _ => none
      else if c = 'n' then
        match rest with
        | 'u' :: 'l' :: 'l' :: r => some (Json.null, r)
        | _ => none
      else if c = '-' ∨ c.isDigit then
        (parseNumberLex (c :: rest)).map (fun pr => (Json.num pr.1, pr.2))
      else none
  | fuel + 1, .elems acc, s =>
    match parseCore fuel .value s with
    | none => none
    | some (v, rest) =>
      match rest.dropWhile jsonWsChar with
      | ',' :: r2 => parseCore fuel (.elems (acc ++ [v])) r2
      | ']' :: r2 => some (Json.arr (acc ++ [v]), r2)
      | _ => none
  | fuel + 1, .members acc, s =>
    match s.dropWhile jsonWsChar with
    | c :: rest =>
      if c = qChar then
        match parseStringBody (rest.length + 1) rest with
        | some (key, r2) =>
          match r2.dropWhile jsonWsChar with
          | ':' :: r3 =>
            match parseCore fuel .value r3 with
            | some (v, r4) =>
              let acc2 := objSet acc key v
              match r4.dropWhile jsonWsChar with
              | ',' :: r5 => parseCore fuel (.members acc2) r5
              | c2 :: r5 => if c2 = rbChar then some (Json.obj acc2, r5) else none
              | [] => none
            | none => none
          | _ => none
        | none => none
      else none
    | [] => none

/-- Embeds `JSON.parse`: read one value, require only whitespace after
it, fail (throw) otherwise.  `none` is the thrown `SyntaxError`. -/
def Json.parse (s : JStr) : Option Json :=
  match parseCore (2 * s.length + 2) .value s with
  | some (j, rest) => if (rest.dropWhile jsonWsChar).isEmpty then some j else none
  | none => none

/-! ## Plan Generator (part_004, `generateSlidePlan` and `createFallbackPlan`) -/

/-- Output language selector (`types.ts`, `OutputLanguage`). -/
inductive OutputLanguage where
  | en
  | zh
deriving DecidableEq

/-- Backend provider selector (`types.ts`, `Provider`). -/
inductive Provider where
  | google
  | zenmux
deriving DecidableEq

/-- The plan returned by `generateSlidePlan`.  At runtime the success
value is the parsed JSON object after the post-processing assignments,
so `topic` is whatever JSON value the model returned for that key (or
absent), while `style` and `requirements` are exactly the caller inputs
written over the object (`string | undefined`, embedded as
`Option JStr`), and `slides` is the mutated slides array. -/
structure PresentationPlan where
  topic : Option Json
  style : Option JStr
  requirements : Option JStr
  slides : List Json

def idKey : JStr := "id".toList
def titleKey : JStr := "title".toList
def bulletsKey : JStr := "bullets".toList
def visualNoteKey : JStr := "visualNote".toList
def selKey : JStr := "selectedImageIds".toList
def slidesKey : JStr := "slides".toList
def topicKey : JStr := "topic".toList

/-- Digits of a natural number, as rendered into template literals. -/
def natChars (n : Nat) : JStr := (Nat.repr n).toList

/-- `slide-` followed by the zero-based index (template literal in
`createFallbackPlan`). -/
def slideIdChars (i : Nat) : JStr := "slide-".toList ++ natChars i

/-- Fallback topic text, by output language. -/
def fallbackTopic (lang : OutputLanguage) : JStr :=
  match lang with
  | .zh => "生成的演示文稿".toList
  | .en => "Generated Presentation".toList

/-- Fallback slide title: localized word, a space, then the one-based
slide number. -/
def fallbackTitle (lang : OutputLanguage) (i : Nat) : JStr :=
  (match lang with
   | .zh => "幻灯片".toList
   | .en => "Slide".toList) ++ [' '] ++ natChars (i + 1)

/-- The two localized placeholder bullets. -/
def fallbackBullets (lang : OutputLanguage) : List Json :=
  [Json.str (match lang with
             | .zh => "内容生成失败。".toList
             | .en => "Content generation failed.".toList),
   Json.str (match lang with
             | .zh => "请手动编辑。".toList
             | .en => "Please edit manually.".toList)]

/-- One placeholder slide of the fallback plan (part_004 lines 235-244). -/
def fallbackSlide (lang : OutputLanguage) (i : Nat) : Json :=
  Json.obj
    [(idKey, Json.str (slideIdChars i)),
     (titleKey, Json.str (fallbackTitle lang i)),
     (bulletsKey, Json.arr (fallbackBullets lang)),
     (visualNoteKey, Json.str "Placeholder".toList),
     (selKey, Json.arr [])]

/-- `createFallbackPlan` (part_004 lines 231-246): the deterministic
placeholder plan.  The object literal carries no `requirements` key. -/
def createFallbackPlan (slideCount : Nat) (lang : OutputLanguage) (styleInput : Option JStr) :
    PresentationPlan :=
  { topic := some (Json.str (fallbackTopic lang)),
    style := styleInput,
    requirements := none,
    slides := (List.range slideCount).map (fun i => fallbackSlide lang i) }

/-- `s.selectedImageIds = []` on one parsed slide.  In strict-mode JS the
assignment succeeds on an object and throws a TypeError on a primitive;
`none` is the throw.  (An array with an expando property is outside the
representation; no claim depends on that corner.) -/
def setSlideImagesEmpty : Json → Option Json
  | .obj fs => some (Json.obj (objSet fs selKey (Json.arr [])))
  | _ => none

/-- `forEach` with a body that can throw, threading the first failure. -/
def mapOption (f : α → Option β) : List α → Option (List β)
  | [] => some []
  | a :: as =>
    match f a, mapOption f as with
    | some b, some bs => some (b :: bs)
    | _, _ => none

/-- The post-parse steps shared by both provider branches (part_004
lines 152-157 and 215-220): write `style` and `requirements` over the
parsed value, require a slides array, blank every slide's
`selectedImageIds`.  `none` covers every JS throw on this stretch: a
primitive parse result (property assignment throws), a missing or falsy
`slides` (the explicit gateway check throws; the SDK branch throws a
TypeError calling `forEach` on it), a truthy non-array `slides` (no
`forEach`), and a non-object slide element (assignment throws). -/
def finalizeParsedPlan (parsed : Option Json) (style reqs : Option JStr) :
    Option PresentationPlan :=
  match parsed with
  | some (.obj fs) =>
    match objGet fs slidesKey with
    | some (.arr ss) =>
      (mapOption setSlideImagesEmpty ss).map (fun ss2 =>
        { topic := objGet fs topicKey,
          style := style,
          requirements := reqs,
          slides := ss2 })
    | _ => none
  | _ => none

/-- The gateway fence markers, as character lists. -/
def bt3 : JStr := [btChar, btChar, btChar]

def sepJson : JStr := [btChar, btChar, btChar, 'j', 's', 'o', 'n']

/-- Markdown code-fence stripping on the gateway branch (part_004 lines
146-150): content after the first triple-backtick-json marker, cut at
the next triple backtick, trimmed; else the same with a bare fence;
else the content verbatim. -/
def cleanContent (content : JStr) : JStr :=
  if jsIncludes content sepJson then
    jsTrim ((jsSplit bt3 ((jsSplit sepJson content).getD 1 [])).getD 0 [])
  else if jsIncludes content bt3 then
    jsTrim ((jsSplit bt3 ((jsSplit bt3 content).getD 1 [])).getD 0 [])
  else content

/-- Gateway branch from the extracted message content onward: strip
fences, parse, post-process; any throw lands in the catch and yields
the fallback plan. -/
def processZenmuxContent (c : JStr) (slideCount : Nat) (lang : OutputLanguage)
    (style reqs : Option JStr) : PresentationPlan :=
  match finalizeParsedPlan (Json.parse (cleanContent c)) style reqs with
  | some p => p
  | none => createFallbackPlan slideCount lang style

/-- Managed-SDK branch from `response.text` onward: parse the raw text
(no fence stripping on this branch), post-process, fall back on throw. -/
def processGoogleText (c : JStr) (slideCount : Nat) (lang : OutputLanguage)
    (style reqs : Option JStr) : PresentationPlan :=
  match finalizeParsedPlan (Json.parse c) style reqs with
  | some p => p
  | none => createFallbackPlan slideCount lang style

/-- Observable outcome of the one transport call made by
`generateSlidePlan`: the fetch or SDK call threw, the gateway response
was not ok, the response carried no usable text content, or it carried
the content string. -/
inductive ModelResponse where
  | transportError (msg : JStr)
  | badStatus (msg : JStr)
  | missingContent
  | content (c : JStr)

/-- `generateSlidePlan` (part_004 lines 17-229) as a function of the
provider and of the transport outcome.  Every failure constructor and
every post-processing throw reaches a catch whose handler returns
`createFallbackPlan`. -/
def generateSlidePlan (provider : Provider) (resp : ModelResponse) (slideCount : Nat)
    (lang : OutputLanguage) (style reqs : Option JStr) : PresentationPlan :=
  match provider with
  | .zenmux =>
    match resp with
    | .content c => processZenmuxContent c slideCount lang style reqs
    | _ => createFallbackPlan slideCount lang style
  | .google =>
    match resp with
    | .content c => processGoogleText c slideCount lang style reqs
    | _ => createFallbackPlan slideCount lang style

/-- Decides whether a `generateSlidePlan` run takes a failure path
(transport, parsing, or shape failure) rather than returning a
post-processed model plan. -/
def planFailed (provider : Provider) (resp : ModelResponse) (style reqs : Option JStr) : Bool :=
  match provider, resp with
  | .zenmux, .content c =>
    (finalizeParsedPlan (Json.parse (cleanContent c)) style reqs).isNone
  | .google, .content c =>
    (finalizeParsedPlan (Json.parse c) style reqs).isNone
  | _, _ => true

/-! ## Slide Image Generator (part_004, `generateFinalSlideImage`) -/

/-- Outcome of one model image-generation call: a response carrying the
content parts of the first candidate (`inlineData.data` for image parts,
`none` for text parts; an absent candidate list arrives as `[]` through
the `|| []` guard), or a thrown error carrying its message text. -/
inductive GenResult where
  | ok (parts : List (Option JStr))
  | err (msg : JStr)

/-- Result of one `generateFinalSlideImage` invocation: the value
returned or the error thrown, together with how many secondary-model
calls were made on the way. -/
structure ImageRun where
  result : Except JStr JStr
  secondaryCalls : Nat

/-- The returned-image prefix of the data URI built by the source. -/
def dataUriPrefixChars : JStr := "data:image/png;base64,".toList

/-- Scan the content parts for the first inline image payload. -/
def extractInline (parts : List (Option JStr)) : Option JStr :=
  parts.findSome? id

/-- Error text thrown when a structurally-ok SDK response has no image
part (part_004 line 414). -/
def noImageMsg : JStr := "No image data found in response".toList

/-- Fallback-eligibility test on the Managed SDK branch (part_004 line
422): case-sensitive `includes` against the three markers. -/
def googleFallbackEligible (m : JStr) : Bool :=
  jsIncludes m "permission".toList || jsIncludes m "403".toList ||
    jsIncludes m "not found".toList

/-- Managed-SDK branch of `generateFinalSlideImage` (part_004 lines
382-449), as a function of the primary-model and secondary-model call
outcomes.  A primary response with no image part throws inside the same
try and is classified like any other error.  When the marker test
matches, exactly one secondary call is made: its image is returned, its
thrown error is rethrown, and a markerless secondary response with no
image part falls through to rethrowing the original error. -/
def googleImageGen (primary secondary : GenResult) : ImageRun :=
  let afterPrimary : Except JStr JStr :=
    match primary with
    | .ok parts =>
      match extractInline parts with
      | some d => .ok (dataUriPrefixChars ++ d)
      | none => .error noImageMsg
    | .err m => .error m
  match afterPrimary with
  | .ok uri => { result := .ok uri, secondaryCalls := 0 }
  | .error errorMsg =>
    if googleFallbackEligible errorMsg then
      match secondary with
      | .err fm => { result := .error fm, secondaryCalls := 1 }
      | .ok parts =>
        match extractInline parts with
        | some d => { result := .ok (dataUriPrefixChars ++ d), secondaryCalls := 1 }
        | none => { result := .error errorMsg, secondaryCalls := 1 }
    else { result := .error errorMsg, secondaryCalls := 0 }

/-- Outcome of the single gateway image request: the fetch or body read
threw, the response status was not ok (the thrown message), or an ok
JSON body carrying an optional top-level `imageBase64` and the optional
parts of the first candidate. -/
inductive ZenmuxImageResponse where
  | fetchError (msg : JStr)
  | badStatus (msg : JStr)
  | okBody (imageBase64 : Option JStr) (parts : Option (List (Option JStr)))

/-- Error text thrown when the gateway body holds no image (part_004
line 372). -/
def zenmuxNoImageMsg : JStr := "No image data found in Zenmux response".toList

/-- Gateway branch of `generateFinalSlideImage` (part_004 lines
302-380): one fetch, extraction preferring the top-level `imageBase64`
shortcut and otherwise scanning the candidate parts for the first
inline payload (the source's second and third extraction branches
jointly implement that scan), and a catch that rethrows every error
unchanged.  No secondary model exists on this branch. -/
def zenmuxImageGen : ZenmuxImageResponse → ImageRun
  | .fetchError m => { result := .error m, secondaryCalls := 0 }
  | .badStatus m => { result := .error m, secondaryCalls := 0 }
  | .okBody (some b) _ => { result := .ok (dataUriPrefixChars ++ b), secondaryCalls := 0 }
  | .okBody none (some ps) =>
    match extractInline ps with
    | some b => { result := .ok (dataUriPrefixChars ++ b), secondaryCalls := 0 }
    | none => { result := .error zenmuxNoImageMsg, secondaryCalls := 0 }
  | .okBody none none => { result := .error zenmuxNoImageMsg, secondaryCalls := 0 }

/-! ## Session Controller (PreviewDownload.tsx, `startGeneration`) -/

/-- JS truthiness of a `string | null` slot of the results array. -/
def jsTruthy : Option JStr → Bool
  | none => false
  | some s => !s.isEmpty

/-- Batch-abort classification of a per-slide error
(PreviewDownload.tsx lines 111-119): case-sensitive `includes` against
the four markers. -/
def isAbortError (m : JStr) : Bool :=
  jsIncludes m "permission".toList || jsIncludes m "403".toList ||
    jsIncludes m "The caller does not have permission".toList ||
    jsIncludes m "quota".toList

/-- State of one batch run when it ends: the results array, the indices
whose render was actually invoked, in order, and whether the run ended
through the quota/permission early return. -/
structure BatchRun where
  results : List (Option JStr)
  attempted : List Nat
  aborted : Bool

/-- The sequential loop of `startGeneration` (lines 73-131) over the
remaining slide indices.  A truthy slot is skipped without invoking the
renderer; a success is written into the slot; an abort-classified error
returns immediately so no later index is ever visited; any other error
leaves the slot and continues.  `render` is the per-index outcome of
`generateFinalSlideImage`. -/
def runBatchGo (render : Nat → Except JStr JStr) :
    List Nat → List (Option JStr) → List Nat → BatchRun
  | [], res, att => { results := res, attempted := att, aborted := false }
  | i :: rest, res, att =>
    if jsTruthy (res.getD i none) then runBatchGo render rest res att
    else
      match render i with
      | .ok uri => runBatchGo render rest (res.set i (some uri)) (att ++ [i])
      | .error m =>
        if isAbortError m then { results := res, attempted := att ++ [i], aborted := true }
        else runBatchGo render rest res (att ++ [i])

/-- One `startGeneration` batch run: indices `0 .. plan.slides.length-1`
in order, starting from the current results array. -/
def runBatch (render : Nat → Except JStr JStr) (init : List (Option JStr)) : BatchRun :=
  runBatchGo render (List.range init.length) init []

/-- A three-slide render environment: outcome for slide A, B, C. -/
def abcOutcomes (a b c : Except JStr JStr) : Nat → Except JStr JStr :=
  fun i => if i = 0 then a else if i = 1 then b else c

/-! ## Session Controller claims -/

/-- C2: with slides [A,B,C], A rendering successfully and B failing
with an error whose text contains one of the abort markers (quota,
permission, 403, The caller does not have permission), the batch run
attempts A, attempts B, aborts the whole run, and never attempts C. -/
theorem claim2_abort_stops_batch (uriA mB : JStr) (outC : Except JStr JStr)
    (hB : isAbortError mB = true) :
    (runBatch (abcOutcomes (.ok uriA) (.error mB) outC) [none, none, none]).attempted = [0, 1] ∧
    (runBatch (abcOutcomes (.ok uriA) (.error mB) outC) [none, none, none]).aborted = true ∧
    2 ∉ (runBatch (abcOutcomes (.ok uriA) (.error mB) outC) [none, none, none]).attempted := by
  have h0 : runBatch (abcOutcomes (.ok uriA) (.error mB) outC) [none, none, none]
      = runBatchGo (abcOutcomes (.ok uriA) (.error mB) outC) [0, 1, 2] [none, none, none] [] :=
    rfl
  rw [h0]
  refine ⟨?_, ?_, ?_⟩ <;>
    simp [runBatchGo, abcOutcomes, jsTruthy, hB]

/-- C4: with slides [A,B,C], B failing with an error matching none of
the abort markers while A and C succeed, the batch run attempts all of
A, B, C in order, does not abort, and ends with the slot of B absent
while the slots of A and C hold their images. -/
theorem claim4_recoverable_error_continues (uriA mB uriC : JStr)
    (hB : isAbortError mB = false) :
    (runBatch (abcOutcomes (.ok uriA) (.error mB) (.ok uriC)) [none, none, none]).attempted
        = [0, 1, 2] ∧
    (runBatch (abcOutcomes (.ok uriA) (.error mB) (.ok uriC)) [none, none, none]).aborted
        = false ∧
    (runBatch (abcOutcomes (.ok uriA) (.error mB) (.ok uriC)) [none, none, none]).results
        = [some uriA, none, some uriC] := by
  have h0 : runBatch (abcOutcomes (.ok uriA) (.error mB) (.ok uriC)) [none, none, none]
      = runBatchGo (abcOutcomes (.ok uriA) (.error mB) (.ok uriC)) [0, 1, 2] [none, none, none] [] :=
    rfl
  rw [h0]
  refine ⟨?_, ?_, ?_⟩ <;>
    simp [runBatchGo, abcOutcomes, jsTruthy, hB]

/-- Any index whose slot is truthy when the loop starts is never
attempted during the loop and its slot is never modified. -/
theorem runBatchGo_preserves (render : Nat → Except JStr JStr) (k : Nat) (img : JStr)
    (himg : img.isEmpty = false) :
    ∀ (idxs : List Nat) (res : List (Option JStr)) (att : List Nat),
      res.getD k none = some img →
      (runBatchGo render idxs res att).results.getD k none = some img ∧
      (k ∈ (runBatchGo render idxs res att).attempted → k ∈ att) := by
  intro idxs
  induction idxs with
  | nil => intro res att hres; simpa [runBatchGo] using hres
  | cons i rest ih =>
    intro res att hres
    have hk_truthy : jsTruthy (res.getD k none) = true := by
      rw [hres]; simp [jsTruthy, himg]
    by_cases ht : jsTruthy (res.getD i none) = true
    · have := ih res att hres
      simp only [runBatchGo, ht, if_true]
      exact this
    · have hki : k ≠ i := by
        intro h; rw [h] at hk_truthy; exact ht hk_truthy
      rw [Bool.not_eq_true] at ht
      simp only [runBatchGo, ht, Bool.false_eq_true, if_false]
      cases hr : render i with
      | ok uri =>
        have hset : (res.set i (some uri)).getD k none = some img := by
          rw [List.getD_eq_getElem?_getD, List.getElem?_set_ne (Ne.symm hki),
            ← List.getD_eq_getElem?_getD, hres]
        have := ih (res.set i (some uri)) (att ++ [i]) hset
        refine ⟨this.1, fun hmem => ?_⟩
        rcases List.mem_append.mp (this.2 hmem) with h | h
        · exact h
        · exact absurd (List.mem_singleton.mp h) hki
      | error m =>
        by_cases hab : isAbortError m = true
        · simp only [hab, if_true]
          refine ⟨hres, fun hmem => ?_⟩
          rcases List.mem_append.mp hmem with h | h
          · exact h
          · exact absurd (List.mem_singleton.mp h) hki
        · rw [Bool.not_eq_true] at hab
          simp only [hab, Bool.false_eq_true, if_false]
          have := ih res (att ++ [i]) hres
          refine ⟨this.1, fun hmem => ?_⟩
          rcases List.mem_append.mp (this.2 hmem) with h | h
          · exact h
          · exact absurd (List.mem_singleton.mp h) hki

/-- C8: a batch run over a plan leaves every already-rendered slide
untouched: an index whose result slot holds an image when the run
starts is skipped without invoking the renderer, and its stored image
is unchanged when the run ends.  Hence a second run over the same plan
regenerates nothing that the first run produced. -/
theorem claim8_rendered_slides_skipped (render : Nat → Except JStr JStr)
    (init : List (Option JStr)) (k : Nat) (img : JStr)
    (hk : init.getD k none = some img) (himg : img.isEmpty = false) :
    k ∉ (runBatch render init).attempted ∧
    (runBatch render init).results.getD k none = some img := by
  have h := runBatchGo_preserves render k img himg (List.range init.length) init [] hk
  exact ⟨fun hmem => by simpa using h.2 hmem, h.1⟩

theorem claim2_witness :
    (runBatch (abcOutcomes (.ok "imgA".toList) (.error "quota exceeded".toList)
        (.ok "imgC".toList)) [none, none, none]).attempted = [0, 1] ∧
    (runBatch (abcOutcomes (.ok "imgA".toList) (.error "quota exceeded".toList)
        (.ok "imgC".toList)) [none, none, none]).aborted = true ∧
    2 ∉ (runBatch (abcOutcomes (.ok "imgA".toList) (.error "quota exceeded".toList)
        (.ok "imgC".toList)) [none, none, none]).attempted :=
  claim2_abort_stops_batch "imgA".toList "quota exceeded".toList (.ok "imgC".toList) (by decide)

theorem claim4_witness :
    (runBatch (abcOutcomes (.ok "imgA".toList) (.error "network error".toList)
        (.ok "imgC".toList)) [none, none, none]).attempted = [0, 1, 2] ∧
    (runBatch (abcOutcomes (.ok "imgA".toList) (.error "network error".toList)
        (.ok "imgC".toList)) [none, none, none]).aborted = false ∧
    (runBatch (abcOutcomes (.ok "imgA".toList) (.error "network error".toList)
        (.ok "imgC".toList)) [none, none, none]).results
      = [some "imgA".toList, none, some "imgC".toList] :=
  claim4_recoverable_error_continues "imgA".toList "network error".toList "imgC".toList
    (by decide)

theorem claim8_witness :
    0 ∉ (runBatch (fun _ => .error "network error".toList)
        [some "data:image/png;base64,QQ==".toList, none]).attempted ∧
    (runBatch (fun _ => .error "network error".toList)
        [some "data:image/png;base64,QQ==".toList, none]).results.getD 0 none
      = some "data:image/png;base64,QQ==".toList :=
  claim8_rendered_slides_skipped (fun _ => .error "network error".toList)
    [some "data:image/png;base64,QQ==".toList, none] 0 "data:image/png;base64,QQ==".toList
    (by decide) (by decide)

/-! ## Slide Image Generator claims -/

/-- C3: on the Managed SDK branch, a primary failure whose message
contains the marker 403 leads to exactly one secondary-model call; a
primary failure whose message matches none of the fallback markers
leads to zero secondary calls and the original error is propagated
unchanged. -/
theorem claim3_secondary_model_policy (m : JStr) (secondary : GenResult) :
    (jsIncludes m "403".toList = true →
      (googleImageGen (.err m) secondary).secondaryCalls = 1) ∧
    (googleFallbackEligible m = false →
      (googleImageGen (.err m) secondary).secondaryCalls = 0 ∧
      (googleImageGen (.err m) secondary).result = .error m) := by
  constructor
  · intro h403
    have helig : googleFallbackEligible m = true := by
      simp only [googleFallbackEligible, Bool.or_eq_true]
      exact Or.inl (Or.inr h403)
    cases secondary with
    | err fm => simp [googleImageGen, helig]
    | ok parts =>
      cases hx : extractInline parts with
      | none => simp [googleImageGen, helig, hx]
      | some d => simp [googleImageGen, helig, hx]
  · intro helig
    constructor <;> simp [googleImageGen, helig]

theorem claim3_witness :
    (googleImageGen (.err "Request failed with status 403".toList)
        (.err "secondary also failed".toList)).secondaryCalls = 1 ∧
    (googleImageGen (.err "timeout".toList)
        (.ok [some "QQ==".toList])).secondaryCalls = 0 ∧
    (googleImageGen (.err "timeout".toList)
        (.ok [some "QQ==".toList])).result = .error "timeout".toList := by
  refine ⟨(claim3_secondary_model_policy "Request failed with status 403".toList
      (.err "secondary also failed".toList)).1 (by decide), ?_, ?_⟩
  · exact ((claim3_secondary_model_policy "timeout".toList
      (.ok [some "QQ==".toList])).2 (by decide)).1
  · exact ((claim3_secondary_model_policy "timeout".toList
      (.ok [some "QQ==".toList])).2 (by decide)).2

/-- Case-insensitive substring test, as worded by the specification for
the Managed-SDK marker match; used to state the counterexample to C7. -/
def ciIncludes (s sep : JStr) : Bool :=
  jsIncludes (s.map Char.toLower) (sep.map Char.toLower)

/-- C7 counterexample: the message Permission denied contains the
marker permission case-insensitively, yet the Managed-SDK branch makes
no secondary-model call for it, because the source matches with the
case-sensitive `includes`: the claimed case-insensitive match does not
hold. -/
theorem claim7_counterexample :
    ciIncludes "Permission denied".toList "permission".toList = true ∧
    (googleImageGen (.err "Permission denied".toList)
        (.ok [some "QQ==".toList])).secondaryCalls = 0 := by
  constructor
  · decide
  · decide

/-- C7 (amended): the Managed-SDK fallback-eligibility test is a
case-sensitive substring match of the primary error message against
permission, 403 and not found: whenever the message contains one of
these markers with exact case, the secondary model is attempted
(exactly one secondary call); a message matching only up to letter
case, such as Permission denied, does not trigger the secondary
model. -/
theorem claim7_case_sensitive_markers (m : JStr) (secondary : GenResult)
    (helig : googleFallbackEligible m = true) :
    (googleImageGen (.err m) secondary).secondaryCalls = 1 := by
  cases secondary with
  | err fm => simp [googleImageGen, helig]
  | ok parts =>
    cases hx : extractInline parts with
    | none => simp [googleImageGen, helig, hx]
    | some d => simp [googleImageGen, helig, hx]

theorem claim7_witness :
    (googleImageGen (.err "permission denied".toList)
        (.err "secondary also failed".toList)).secondaryCalls = 1 :=
  claim7_case_sensitive_markers "permission denied".toList
    (.err "secondary also failed".toList) (by decide)

/-- C10: the gateway branch of the image generator makes no
secondary-model call in any outcome, and every thrown failure,
including one whose message contains permission or 403, is propagated
unchanged; the primary-then-secondary chain exists only on the
Managed-SDK branch. -/
theorem claim10_zenmux_no_retry (r : ZenmuxImageResponse) :
    (zenmuxImageGen r).secondaryCalls = 0 ∧
    (∀ m, r = .fetchError m ∨ r = .badStatus m →
      (zenmuxImageGen r).result = .error m) := by
  constructor
  · cases r with
    | fetchError m => rfl
    | badStatus m => rfl
    | okBody ib parts =>
      cases ib with
      | some b => rfl
      | none =>
        cases parts with
        | none => rfl
        | some ps =>
          cases hx : extractInline ps with
          | none => simp [zenmuxImageGen, hx]
          | some b => simp [zenmuxImageGen, hx]
  · intro m hm
    rcases hm with h | h <;> subst h <;> rfl

theorem claim10_witness :
    (zenmuxImageGen (.fetchError "403: The caller does not have permission".toList)).secondaryCalls
        = 0 ∧
    (zenmuxImageGen (.fetchError "403: The caller does not have permission".toList)).result
        = .error "403: The caller does not have permission".toList :=
  ⟨(claim10_zenmux_no_retry (.fetchError "403: The caller does not have permission".toList)).1,
   (claim10_zenmux_no_retry (.fetchError "403: The caller does not have permission".toList)).2
     "403: The caller does not have permission".toList (Or.inl rfl)⟩

/-! ## Plan Generator claims -/

theorem objGet_objSet (fs : List (JStr × Json)) (k : JStr) (v : Json) :
    objGet (objSet fs k v) k = some v := by
  induction fs with
  | nil => simp [objSet, objGet]
  | cons kv rest ih =>
    by_cases h : kv.1 = k
    · simp [objSet, objGet, h]
    · simp [objSet, objGet, h, ih]

theorem mem_mapOption_sel (ss ss2 : List Json) (h : mapOption setSlideImagesEmpty ss = some ss2) :
    ∀ s ∈ ss2, jsonGet s selKey = some (Json.arr []) := by
  induction ss generalizing ss2 with
  | nil =>
    simp only [mapOption, Option.some_inj] at h
    subst h
    intro s hs
    exact absurd hs (List.not_mem_nil s)
  | cons a as ih =>
    cases ha : setSlideImagesEmpty a with
    | none =>
      simp only [mapOption, ha] at h
      exact Option.noConfusion h
    | some b =>
      cases hm : mapOption setSlideImagesEmpty as with
      | none =>
        simp only [mapOption, ha, hm] at h
        exact Option.noConfusion h
      | some bs =>
        simp only [mapOption, ha, hm, Option.some_inj] at h
        subst h
        intro s hs
        rcases List.mem_cons.mp hs with rfl | hs2
        · cases a with
          | obj fsa =>
            simp only [setSlideImagesEmpty, Option.some_inj] at ha
            subst ha
            exact objGet_objSet fsa selKey (Json.arr [])
          | null => simp [setSlideImagesEmpty] at ha
          | bool b2 => simp [setSlideImagesEmpty] at ha
          | num l => simp [setSlideImagesEmpty] at ha
          | str s2 => simp [setSlideImagesEmpty] at ha
          | arr xs => simp [setSlideImagesEmpty] at ha
        · exact ih bs hm s hs2

theorem finalizeParsedPlan_some_spec (pj : Option Json) (style reqs : Option JStr)
    (p : PresentationPlan) (h : finalizeParsedPlan pj style reqs = some p) :
    p.style = style ∧ p.requirements = reqs ∧
    ∀ s ∈ p.slides, jsonGet s selKey = some (Json.arr []) := by
  unfold finalizeParsedPlan at h
  split at h
  next fs =>
    split at h
    next ss _ =>
      rw [Option.map_eq_some'] at h
      obtain ⟨ss2, hm, hp⟩ := h
      subst hp
      exact ⟨rfl, rfl, mem_mapOption_sel ss ss2 hm⟩
    next => exact absurd h (by simp)
  next => exact absurd h (by simp)

/-- Every failure path of `generateSlidePlan` returns the deterministic
fallback plan. -/
theorem generateSlidePlan_failed_eq (provider : Provider) (resp : ModelResponse) (n : Nat)
    (lang : OutputLanguage) (style reqs : Option JStr)
    (hfail : planFailed provider resp style reqs = true) :
    generateSlidePlan provider resp n lang style reqs = createFallbackPlan n lang style := by
  cases provider <;> cases resp <;>
    simp only [planFailed, Option.isNone_iff_eq_none] at hfail <;>
    simp [generateSlidePlan, processZenmuxContent, processGoogleText, hfail]

/-- C1: on any transport, parsing, or schema-validation failure,
`generateSlidePlan` returns the deterministic fallback plan: exactly
`slideCount` slides, slide `i` carrying id `slide-i`, the localized
placeholder title (word for Slide by language, then the one-based
number), exactly the two localized placeholder bullets, visualNote
`Placeholder`, empty `selectedImageIds`, and the plan style equal to
the caller-supplied style input. -/
theorem claim1_fallback_plan (provider : Provider) (resp : ModelResponse) (n : Nat)
    (lang : OutputLanguage) (style reqs : Option JStr)
    (hfail : planFailed provider resp style reqs = true) :
    generateSlidePlan provider resp n lang style reqs = createFallbackPlan n lang style ∧
    (generateSlidePlan provider resp n lang style reqs).slides.length = n ∧
    (generateSlidePlan provider resp n lang style reqs).style = style ∧
    ∀ i, i < n →
      jsonGet ((generateSlidePlan provider resp n lang style reqs).slides.getD i Json.null)
          idKey = some (Json.str (slideIdChars i)) ∧
      jsonGet ((generateSlidePlan provider resp n lang style reqs).slides.getD i Json.null)
          titleKey = some (Json.str (fallbackTitle lang i)) ∧
      jsonGet ((generateSlidePlan provider resp n lang style reqs).slides.getD i Json.null)
          bulletsKey = some (Json.arr (fallbackBullets lang)) ∧
      jsonGet ((generateSlidePlan provider resp n lang style reqs).slides.getD i Json.null)
          visualNoteKey = some (Json.str "Placeholder".toList) ∧
      jsonGet ((generateSlidePlan provider resp n lang style reqs).slides.getD i Json.null)
          selKey = some (Json.arr []) := by
  have hfb := generateSlidePlan_failed_eq provider resp n lang style reqs hfail
  refine ⟨hfb, ?_, ?_, ?_⟩ <;> rw [hfb]
  · simp [createFallbackPlan]
  · rfl
  · intro i hi
    have hs : (createFallbackPlan n lang style).slides.getD i Json.null = fallbackSlide lang i := by
      simp [createFallbackPlan, List.getD_eq_getElem?_getD, List.getElem?_map,
        List.getElem?_range hi]
    rw [hs]
    exact ⟨rfl, rfl, rfl, rfl, rfl⟩

theorem claim1_witness :
    generateSlidePlan Provider.zenmux (ModelResponse.transportError "network down".toList) 2
        OutputLanguage.en (some "Minimalist".toList) (some "Focus on growth".toList)
      = createFallbackPlan 2 OutputLanguage.en (some "Minimalist".toList) :=
  (claim1_fallback_plan Provider.zenmux (ModelResponse.transportError "network down".toList) 2
    OutputLanguage.en (some "Minimalist".toList) (some "Focus on growth".toList) (by decide)).1

/-- C5: on every path of `generateSlidePlan` - model success under
either provider or fallback - every slide of the returned plan has an
empty `selectedImageIds`, whatever value the model returned for that
field. -/
theorem claim5_selected_image_ids_cleared (provider : Provider) (resp : ModelResponse) (n : Nat)
    (lang : OutputLanguage) (style reqs : Option JStr) :
    ∀ s ∈ (generateSlidePlan provider resp n lang style reqs).slides,
      jsonGet s selKey = some (Json.arr []) := by
  have hfb : ∀ s ∈ (createFallbackPlan n lang style).slides,
      jsonGet s selKey = some (Json.arr []) := by
    intro s hs
    simp only [createFallbackPlan, List.mem_map] at hs
    obtain ⟨i, _, rfl⟩ := hs
    rfl
  cases provider <;> cases resp <;> try exact hfb
  case google.content c =>
    cases hfin : finalizeParsedPlan (Json.parse c) style reqs with
    | none =>
      have he : generateSlidePlan Provider.google (ModelResponse.content c) n lang style reqs
          = createFallbackPlan n lang style := by
        simp [generateSlidePlan, processGoogleText, hfin]
      rw [he]; exact hfb
    | some p =>
      have he : generateSlidePlan Provider.google (ModelResponse.content c) n lang style reqs
          = p := by
        simp [generateSlidePlan, processGoogleText, hfin]
      rw [he]
      exact (finalizeParsedPlan_some_spec _ _ _ _ hfin).2.2
  case zenmux.content c =>
    cases hfin : finalizeParsedPlan (Json.parse (cleanContent c)) style reqs with
    | none =>
      have he : generateSlidePlan Provider.zenmux (ModelResponse.content c) n lang style reqs
          = createFallbackPlan n lang style := by
        simp [generateSlidePlan, processZenmuxContent, hfin]
      rw [he]; exact hfb
    | some p =>
      have he : generateSlidePlan Provider.zenmux (ModelResponse.content c) n lang style reqs
          = p := by
        simp [generateSlidePlan, processZenmuxContent, hfin]
      rw [he]
      exact (finalizeParsedPlan_some_spec _ _ _ _ hfin).2.2

theorem claim5_witness :
    jsonGet (fallbackSlide OutputLanguage.en 0) selKey = some (Json.arr []) :=
  claim5_selected_image_ids_cleared Provider.google ModelResponse.missingContent 1
    OutputLanguage.en none none (fallbackSlide OutputLanguage.en 0)
    (List.mem_map.mpr ⟨0, by decide, rfl⟩)

/-- C9: the fallback path drops the caller requirements input - the
fallback plan carries no `requirements` value - while every success
path writes `requirements` equal to the caller input over the parsed
plan (only `style` survives a fallback). -/
theorem claim9_requirements_only_on_success (provider : Provider) (resp : ModelResponse)
    (n : Nat) (lang : OutputLanguage) (style reqs : Option JStr) :
    (planFailed provider resp style reqs = true →
      (generateSlidePlan provider resp n lang style reqs).requirements = none) ∧
    (planFailed provider resp style reqs = false →
      (generateSlidePlan provider resp n lang style reqs).requirements = reqs) := by
  constructor
  · intro hfail
    rw [generateSlidePlan_failed_eq provider resp n lang style reqs hfail]
    rfl
  · intro hok
    cases provider <;> cases resp <;> simp only [planFailed] at hok <;>
      first
      | exact Bool.noConfusion hok
      | skip
    case google.content c =>
      cases hfin : finalizeParsedPlan (Json.parse c) style reqs with
      | none => rw [hfin] at hok; exact Bool.noConfusion hok
      | some p =>
        have he : generateSlidePlan Provider.google (ModelResponse.content c) n lang style reqs
            = p := by
          simp [generateSlidePlan, processGoogleText, hfin]
        rw [he]
        exact (finalizeParsedPlan_some_spec _ _ _ _ hfin).2.1
    case zenmux.content c =>
      cases hfin : finalizeParsedPlan (Json.parse (cleanContent c)) style reqs with
      | none => rw [hfin] at hok; exact Bool.noConfusion hok
      | some p =>
        have he : generateSlidePlan Provider.zenmux (ModelResponse.content c) n lang style reqs
            = p := by
          simp [generateSlidePlan, processZenmuxContent, hfin]
        rw [he]
        exact (finalizeParsedPlan_some_spec _ _ _ _ hfin).2.1

theorem claim9_witness :
    (generateSlidePlan Provider.zenmux (ModelResponse.transportError "boom".toList) 2
        OutputLanguage.en none (some "use charts".toList)).requirements = none ∧
    (generateSlidePlan Provider.zenmux
        (ModelResponse.content "\x7b\"topic\":\"T\",\"slides\":[]\x7d".toList) 2
        OutputLanguage.en none (some "use charts".toList)).requirements
      = some "use charts".toList :=
  ⟨(claim9_requirements_only_on_success Provider.zenmux
      (ModelResponse.transportError "boom".toList) 2 OutputLanguage.en none
      (some "use charts".toList)).1 (by decide),
   (claim9_requirements_only_on_success Provider.zenmux
      (ModelResponse.content "\x7b\"topic\":\"T\",\"slides\":[]\x7d".toList) 2
      OutputLanguage.en none (some "use charts".toList)).2 (by decide)⟩

/-! ## Gateway fence round trip (C6) -/

/-- A JSON body wrapped in a markdown code fence tagged json. -/
def fenceWrap (s : JStr) : JStr := sepJson ++ ['\n'] ++ s ++ ['\n'] ++ bt3

theorem splitFirst_append_self (sep rest : JStr) (h : sep ≠ []) :
    splitFirst sep (sep ++ rest) = some ([], rest) := by
  cases sep with
  | nil => exact absurd rfl h
  | cons c cs =>
    have hpre : (c :: cs).isPrefixOf (c :: (cs ++ rest)) = true := by
      rw [List.isPrefixOf_iff_prefix, ← List.cons_append]
      exact List.prefix_append _ _
    rw [List.cons_append]
    simp only [splitFirst, hpre, if_true]
    rw [← List.cons_append]
    simp [List.drop_left]

theorem splitFirst_none_of_head_notMem (c : Char) (ps : JStr) :
    ∀ s : JStr, c ∉ s → splitFirst (c :: ps) s = none := by
  intro s
  induction s with
  | nil => intro _; rfl
  | cons x xs ih =>
    intro h
    have hcx : ¬ (c = x) := fun hc => h (hc ▸ List.mem_cons_self x xs)
    have hxs : c ∉ xs := fun hc => h (List.mem_cons_of_mem x hc)
    have hpre : (c :: ps).isPrefixOf (x :: xs) = false := by
      cases hbeq : (c == x) with
      | false => simp [List.isPrefixOf, hbeq]
      | true => exact absurd (eq_of_beq hbeq) hcx
    simp only [splitFirst, hpre, Bool.false_eq_true, if_false, ih hxs]

theorem splitFirst_append_none (c : Char) (ps u w : JStr) (hu : c ∉ u)
    (hw : splitFirst (c :: ps) w = none) : splitFirst (c :: ps) (u ++ w) = none := by
  induction u with
  | nil => simpa using hw
  | cons x xs ih =>
    have hcx : ¬ (c = x) := fun hc => hu (hc ▸ List.mem_cons_self x xs)
    have hxs : c ∉ xs := fun hc => hu (List.mem_cons_of_mem x hc)
    have hpre : (c :: ps).isPrefixOf (x :: (xs ++ w)) = false := by
      cases hbeq : (c == x) with
      | false => simp [List.isPrefixOf, hbeq]
      | true => exact absurd (eq_of_beq hbeq) hcx
    rw [List.cons_append]
    simp only [splitFirst, hpre, Bool.false_eq_true, if_false, ih hxs]

theorem splitFirst_append_mid (c : Char) (ps u v : JStr) (hu : c ∉ u) :
    splitFirst (c :: ps) (u ++ ((c :: ps) ++ v)) = some (u, v) := by
  induction u with
  | nil => simpa using splitFirst_append_self (c :: ps) v (by simp)
  | cons x xs ih =>
    have hcx : ¬ (c = x) := fun hc => hu (hc ▸ List.mem_cons_self x xs)
    have hxs : c ∉ xs := fun hc => hu (List.mem_cons_of_mem x hc)
    have hpre : (c :: ps).isPrefixOf (x :: (xs ++ ((c :: ps) ++ v))) = false := by
      cases hbeq : (c == x) with
      | false => simp [List.isPrefixOf, hbeq]
      | true => exact absurd (eq_of_beq hbeq) hcx
    rw [List.cons_append]
    simp only [splitFirst, hpre, Bool.false_eq_true, if_false, ih hxs]

theorem jsSplitAux_of_none (sep s : JStr) (fuel : Nat) (h : splitFirst sep s = none) :
    jsSplitAux sep (fuel + 1) s = [s] := by
  simp [jsSplitAux, h]

theorem jsSplitAux_of_some (sep s pre post : JStr) (fuel : Nat)
    (h : splitFirst sep s = some (pre, post)) :
    jsSplitAux sep (fuel + 1) s = pre :: jsSplitAux sep fuel post := by
  simp [jsSplitAux, h]

theorem dropWhile_eq_self_of_trim (s : JStr) (h : jsTrim s = s) :
    s.dropWhile jsonWsChar = s := by
  have hsuf : s.dropWhile jsonWsChar <:+ s := List.dropWhile_suffix _
  apply hsuf.eq_of_length
  have h1 : (jsTrim s).length = s.length := by rw [h]
  have h2 : (jsTrim s).length ≤ (s.dropWhile jsonWsChar).length := by
    unfold jsTrim at *
    rw [List.length_reverse]
    calc ((s.dropWhile jsonWsChar).reverse.dropWhile jsonWsChar).length
        ≤ (s.dropWhile jsonWsChar).reverse.length := (List.dropWhile_suffix _).length_le
      _ = (s.dropWhile jsonWsChar).length := List.length_reverse _
  have h3 : (s.dropWhile jsonWsChar).length ≤ s.length := hsuf.length_le
  omega

theorem dropWhile_reverse_eq_self_of_trim (s : JStr) (h : jsTrim s = s) :
    s.reverse.dropWhile jsonWsChar = s.reverse := by
  have ha := dropWhile_eq_self_of_trim s h
  have hb : ((s.reverse.dropWhile jsonWsChar)).reverse = s := by
    have hh := h
    unfold jsTrim at hh
    rw [ha] at hh
    exact hh
  calc s.reverse.dropWhile jsonWsChar
      = ((s.reverse.dropWhile jsonWsChar).reverse).reverse := (List.reverse_reverse _).symm
    _ = s.reverse := by rw [hb]

theorem jsTrim_wrap (s : JStr) (h : jsTrim s = s) :
    jsTrim ('\n' :: (s ++ ['\n'])) = s := by
  cases s with
  | nil => decide
  | cons c s2 =>
    have ha := dropWhile_eq_self_of_trim (c :: s2) h
    have hb := dropWhile_reverse_eq_self_of_trim (c :: s2) h
    have hc : jsonWsChar c = false := by
      cases hw : jsonWsChar c with
      | false => rfl
      | true =>
        rw [List.dropWhile_cons, hw] at ha
        simp only [if_true] at ha
        have hlen := (List.dropWhile_suffix (l := s2) jsonWsChar).length_le
        rw [ha] at hlen
        simp at hlen
    have e1 : List.dropWhile jsonWsChar ('\n' :: ((c :: s2) ++ ['\n']))
        = List.dropWhile jsonWsChar ((c :: s2) ++ ['\n']) := rfl
    have e2 : List.dropWhile jsonWsChar ((c :: s2) ++ ['\n']) = (c :: s2) ++ ['\n'] := by
      rw [List.cons_append, List.dropWhile_cons, hc]
      simp
    have e3 : ((c :: s2) ++ ['\n']).reverse = '\n' :: (c :: s2).reverse := by simp
    show ((('\n' :: ((c :: s2) ++ ['\n'])).dropWhile jsonWsChar).reverse.dropWhile
        jsonWsChar).reverse = c :: s2
    rw [e1, e2, e3]
    rw [show List.dropWhile jsonWsChar ('\n' :: (c :: s2).reverse)
        = List.dropWhile jsonWsChar ((c :: s2).reverse) from rfl]
    rw [hb, List.reverse_reverse]

theorem cleanContent_of_no_backtick (s : JStr) (h : btChar ∉ s) : cleanContent s = s := by
  have h1 : splitFirst sepJson s = none :=
    splitFirst_none_of_head_notMem btChar [btChar, btChar, 'j', 's', 'o', 'n'] s h
  have h2 : splitFirst bt3 s = none :=
    splitFirst_none_of_head_notMem btChar [btChar, btChar] s h
  simp [cleanContent, jsIncludes, h1, h2]

theorem cleanContent_fenceWrap (s : JStr) (hbt : btChar ∉ s) (htrim : jsTrim s = s) :
    cleanContent (fenceWrap s) = s := by
  have hu : btChar ∉ ('\n' :: (s ++ ['\n'])) := by
    intro hmem
    rcases List.mem_cons.mp hmem with h | h
    · exact absurd h (by decide)
    · rcases List.mem_append.mp h with h | h
      · exact hbt h
      · exact absurd (List.mem_singleton.mp h) (by decide)
  have hfence : fenceWrap s = sepJson ++ (('\n' :: (s ++ ['\n'])) ++ bt3) := by
    simp [fenceWrap, List.append_assoc]
  have h1 : splitFirst sepJson (fenceWrap s)
      = some ([], ('\n' :: (s ++ ['\n'])) ++ bt3) := by
    rw [hfence]
    exact splitFirst_append_self sepJson _ (by simp [sepJson])
  have h2 : splitFirst sepJson (('\n' :: (s ++ ['\n'])) ++ bt3) = none :=
    splitFirst_append_none btChar [btChar, btChar, 'j', 's', 'o', 'n'] _ bt3 hu (by decide)
  have h3 : splitFirst bt3 (('\n' :: (s ++ ['\n'])) ++ bt3)
      = some ('\n' :: (s ++ ['\n']), []) := by
    have hmid := splitFirst_append_mid btChar [btChar, btChar] ('\n' :: (s ++ ['\n'])) [] hu
    simpa [bt3] using hmid
  have e1 : (jsSplit sepJson (fenceWrap s)).getD 1 [] = ('\n' :: (s ++ ['\n'])) ++ bt3 := by
    unfold jsSplit
    obtain ⟨m, hm⟩ : ∃ m, (fenceWrap s).length = m + 1 := by
      refine ⟨(fenceWrap s).length - 1, ?_⟩
      have hpos : 0 < (fenceWrap s).length := by
        simp [fenceWrap, sepJson]
      omega
    rw [jsSplitAux_of_some sepJson (fenceWrap s) [] (('\n' :: (s ++ ['\n'])) ++ bt3)
      ((fenceWrap s).length) h1]
    rw [hm, jsSplitAux_of_none sepJson _ m h2]
    rfl
  have e2 : (jsSplit bt3 (('\n' :: (s ++ ['\n'])) ++ bt3)).getD 0 []
      = '\n' :: (s ++ ['\n']) := by
    unfold jsSplit
    rw [jsSplitAux_of_some bt3 _ ('\n' :: (s ++ ['\n'])) []
      ((('\n' :: (s ++ ['\n'])) ++ bt3).length) h3]
    rfl
  have hinc : jsIncludes (fenceWrap s) sepJson = true := by
    simp [jsIncludes, h1]
  unfold cleanContent
  rw [hinc]
  simp only [if_true]
  rw [e1, e2]
  exact jsTrim_wrap s htrim

/-- C6: the gateway-path content processing gives the same
`PresentationPlan` for a valid JSON body wrapped in a json-tagged fence
as for the raw body: the fence stripping recovers the body exactly, and
everything downstream is the same function of that string.  A body
written by a JSON serializer is trimmed; the fence wrapping presupposes
a body free of backticks. -/
theorem claim6_fence_round_trip (s : JStr) (n : Nat) (lang : OutputLanguage)
    (style reqs : Option JStr) (hbt : btChar ∉ s) (htrim : jsTrim s = s)
    (_hjson : (Json.parse s).isSome = true) :
    processZenmuxContent (fenceWrap s) n lang style reqs
      = processZenmuxContent s n lang style reqs := by
  unfold processZenmuxContent
  rw [cleanContent_fenceWrap s hbt htrim, cleanContent_of_no_backtick s hbt]

theorem claim6_witness :
    processZenmuxContent (fenceWrap "\x7b\"topic\":\"T\",\"slides\":[]\x7d".toList) 3
        OutputLanguage.en none none
      = processZenmuxContent "\x7b\"topic\":\"T\",\"slides\":[]\x7d".toList 3
        OutputLanguage.en none none :=
  claim6_fence_round_trip "\x7b\"topic\":\"T\",\"slides\":[]\x7d".toList 3 OutputLanguage.en
    none none (by decide) (by decide) (by decide)
